import Mathlib

/-!
Shallow embedding of `neo/core/segment.py` (class `Segment`): the data model,
the query/selection operations, sub-segment construction, `merge` and `size`,
together with theorems settling the specification claims about them.

Python values are modelled as follows: record attribute/annotation values are
`Int`; sample buffers are row-major `List (List Int)` (rows = samples,
columns = channels); `None` is `Option.none`; Python exceptions are explicit
error values (`PyErr`, `SegErr`); Python `dict` is an insertion-ordered
association list with overriding assignment.
-/

/-- A putative single-neuron identity (external `Unit` collaborator of the
segment code): exposes `channel_indexes`, possibly absent. Spike and
spike-train records hold a back-reference to one. -/
structure NeoUnit where
  uid : Nat
  channel_indexes : Option (List Int) := none
deriving DecidableEq

/-- A child record of a Segment (duck-typed in Python; one record type here).
`attrs` models the record's plain attribute namespace as probed by
`hasattr`/`getattr` in `Segment.filter`; `annotations` its annotation mapping;
`name` the merge/lookup key of array records; `unit` the back-reference of
spike/spike-train records; `channel_index` the scalar channel of an analog
signal; `channel_indexes` the (possibly absent) channel list of an analog
signal array; `data` its sample buffer. -/
structure Rec where
  name : String := ""
  attrs : List (String × Int) := []
  annotations : List (String × Int) := []
  unit : NeoUnit := ⟨0, none⟩
  channel_index : Int := 0
  channel_indexes : Option (List Int) := none
  data : List (List Int) := []
deriving DecidableEq

/-- The `.shape` of an array record, as read by the error-enrichment code in
`Segment.merge`: (number of samples, number of channels). -/
def Rec.shape (r : Rec) : Nat × Nat :=
  (r.data.length, (r.data.headD []).length)

/-- The aggregate root (`class Segment`): metadata fields and the nine child
collections, all empty after construction (`__init__`). -/
structure Segment where
  name : Option String := none
  description : Option String := none
  file_origin : Option String := none
  file_datetime : Option Int := none
  rec_datetime : Option Int := none
  index : Option Int := none
  epochs : List Rec := []
  epocharrays : List Rec := []
  events : List Rec := []
  eventarrays : List Rec := []
  analogsignals : List Rec := []
  analogsignalarrays : List Rec := []
  irregularlysampledsignals : List Rec := []
  spikes : List Rec := []
  spiketrains : List Rec := []
  block : Option Nat := none
deriving DecidableEq

/-- A freshly constructed `Segment()` with all-default arguments. -/
def Segment.empty : Segment := {}

/-- The `all_data` property: `sum((epochs, epocharrays, events, eventarrays,
analogsignals, analogsignalarrays, irregularlysampledsignals, spikes,
spiketrains), [])`, i.e. a left fold of list concatenation starting from `[]`
over the nine collections in that fixed order. -/
def Segment.all_data (s : Segment) : List Rec :=
  [s.epochs, s.epocharrays, s.events, s.eventarrays, s.analogsignals,
   s.analogsignalarrays, s.irregularlysampledsignals, s.spikes,
   s.spiketrains].foldl (· ++ ·) []

/-- Lookup in an association-list mapping (Python attribute namespace /
annotation dict): the value at the first matching key, if any. -/
def lookupKV (l : List (String × Int)) (k : String) : Option Int :=
  (l.find? fun p => p.1 == k).map fun p => p.2

/-- The annotation branch of the match test in `Segment.filter`:
`key in obj.annotations and obj.annotations[key] == value`. -/
def annMatches (r : Rec) (k : String) (v : Int) : Bool :=
  match lookupKV r.annotations k with
  | some w => w == v
  | none => false

/-- The per-record match test of `Segment.filter`:
`if hasattr(obj, key) and getattr(obj, key) == value: ...` and otherwise
(attribute absent, or present with a different value)
`elif key in obj.annotations and obj.annotations[key] == value: ...`. -/
def recMatches (r : Rec) (k : String) (v : Int) : Bool :=
  match lookupKV r.attrs k with
  | some w => if w == v then true else annMatches r k v
  | none => annMatches r k v

/-- The nested loops of `Segment.filter`: for each criterion `(key, value)` in
order, append every record of `data` (in `data` order) that matches it. -/
def filterAux (data : List Rec) : List (String × Int) → List Rec
  | [] => []
  | (k, v) :: rest => (data.filter fun r => recMatches r k v) ++ filterAux data rest

/-- `Segment.filter(**kwargs)`: scan `all_data` once per criterion, appending
matches; `kwargs` is the insertion-ordered criteria mapping. -/
def Segment.filter (s : Segment) (criteria : List (String × Int)) : List Rec :=
  filterAux s.all_data criteria

/-- `take_spikes_by_unit(unit_list)`: `None` yields `[]`; otherwise the spikes
whose `unit` is a member of the given list, in `spikes` order. -/
def Segment.take_spikes_by_unit (s : Segment) (unit_list : Option (List NeoUnit)) : List Rec :=
  match unit_list with
  | none => []
  | some units => s.spikes.filter fun sp => sp.unit ∈ units

/-- `take_spiketrains_by_unit(unit_list)`: same logic over `spiketrains`. -/
def Segment.take_spiketrains_by_unit (s : Segment) (unit_list : Option (List NeoUnit)) : List Rec :=
  match unit_list with
  | none => []
  | some units => s.spiketrains.filter fun st => st.unit ∈ units

/-- `take_analogsignal_by_channelindex(channel_indexes)`: `None` yields `[]`;
otherwise the analog signals whose scalar `channel_index` is a member of the
given list, in `analogsignals` order. -/
def Segment.take_analogsignal_by_channelindex (s : Segment) (channel_indexes : Option (List Int)) : List Rec :=
  match channel_indexes with
  | none => []
  | some cis => s.analogsignals.filter fun a => a.channel_index ∈ cis

/-- The channel-index accumulation shared by the two `..._by_unit` derivers:
concatenate each unit's `channel_indexes`, skipping units whose field is
`None`, preserving duplicates and order. -/
def gatherChannelIndexes (units : List NeoUnit) : List Int :=
  units.foldl (fun acc u => match u.channel_indexes with
    | some cis => acc ++ cis
    | none => acc) []

/-- `take_analogsignal_by_unit(unit_list)`: `None` yields `[]`; otherwise
gather the units' channel indexes and delegate to
`take_analogsignal_by_channelindex`. -/
def Segment.take_analogsignal_by_unit (s : Segment) (unit_list : Option (List NeoUnit)) : List Rec :=
  match unit_list with
  | none => []
  | some units => s.take_analogsignal_by_channelindex (some (gatherChannelIndexes units))

/-- Modelled from the spec: the boolean-mask column slice `sigarr[:, ind]` of
an array record, where `ind = np.in1d(sigarr.channel_indexes,
channel_indexes)` — the record class itself is an external collaborator not
present in this source file. Per the spec it yields a new array record keeping
all samples and exactly the columns whose own channel index is a member of the
query, in the array's own channel order. -/
def sliceColumns (sigarr : Rec) (cis : List Int) : Rec :=
  match sigarr.channel_indexes with
  | some rcis =>
    { sigarr with
      channel_indexes := some (rcis.filter fun c => c ∈ cis),
      data := sigarr.data.map fun row =>
        ((row.zip rcis).filter fun p => p.2 ∈ cis).map Prod.fst }
  | none => sigarr

/-- `take_slice_of_analogsignalarray_by_channelindex(channel_indexes)`:
`None` yields `[]`; otherwise, for each array whose `channel_indexes` is not
`None`, append its membership-mask column slice; arrays with absent
`channel_indexes` are skipped. -/
def Segment.take_slice_of_analogsignalarray_by_channelindex (s : Segment)
    (channel_indexes : Option (List Int)) : List Rec :=
  match channel_indexes with
  | none => []
  | some cis => s.analogsignalarrays.filterMap fun sigarr =>
      match sigarr.channel_indexes with
      | some _ => some (sliceColumns sigarr cis)
      | none => none

/-- `take_slice_of_analogsignalarray_by_unit(unit_list)`: `None` yields `[]`;
otherwise gather the units' channel indexes and delegate to the slice by
channel index. -/
def Segment.take_slice_of_analogsignalarray_by_unit (s : Segment)
    (unit_list : Option (List NeoUnit)) : List Rec :=
  match unit_list with
  | none => []
  | some units =>
      s.take_slice_of_analogsignalarray_by_channelindex (some (gatherChannelIndexes units))

/-- `construct_subsegment_by_unit(unit_list)`: a new `Segment()` whose
`analogsignals`, `spiketrains` and `analogsignalarrays` are the three
unit-scoped selections; everything else (metadata included) is left at the
constructor's defaults. -/
def Segment.construct_subsegment_by_unit (s : Segment)
    (unit_list : Option (List NeoUnit)) : Segment :=
  { Segment.empty with
    analogsignals := s.take_analogsignal_by_unit unit_list,
    spiketrains := s.take_spiketrains_by_unit unit_list,
    analogsignalarrays := s.take_slice_of_analogsignalarray_by_unit unit_list }

/-- `size()`: the mapping from collection name to current length, with the
keys in the insertion order of the generator in the source. -/
def Segment.size (s : Segment) : List (String × Nat) :=
  [("epochs", s.epochs.length), ("events", s.events.length),
   ("analogsignals", s.analogsignals.length),
   ("irregularlysampledsignals", s.irregularlysampledsignals.length),
   ("spikes", s.spikes.length), ("spiketrains", s.spiketrains.length),
   ("epocharrays", s.epocharrays.length), ("eventarrays", s.eventarrays.length),
   ("analogsignalarrays", s.analogsignalarrays.length)]

/-- A Python exception raised by the record-level `merge` call, classified by
its class: the `except AttributeError` clause in `Segment.merge` distinguishes
`AttributeError` from everything else. -/
inductive PyErr
  | attributeError (msg : String)
  | valueError (msg : String)
  | otherError (msg : String)
deriving DecidableEq

/-- Whether an exception is (an instance of) `AttributeError`. -/
def PyErr.isAttributeError : PyErr → Bool
  | .attributeError _ => true
  | _ => false

/-- A failure of `Segment.merge`:
`enriched` is the re-raised `AttributeError` built in the `except` clause,
carrying the underlying cause, the collection name, the incoming record's
name and its shape; `raw` is any record-merge exception that is not an
`AttributeError` and therefore propagates past the `except` clause unchanged;
`typeErrorListIndex` is the `TypeError` Python raises when a list is indexed
with a non-integer (the registered lookup value); `indexError` covers an
out-of-range list index. -/
inductive SegErr
  | enriched (cause : PyErr) (container : String) (objName : String) (objShape : Nat × Nat)
  | raw (e : PyErr)
  | typeErrorListIndex (container : String)
  | indexError (container : String)
deriving DecidableEq

/-- The value stored under a name in the merge lookup dict: the initial
comprehension stores positions (`idx`), while the else-branch
`lookup[obj.name] = obj` stores the record object itself (`obj`). -/
inductive LookupVal
  | idx (i : Nat)
  | obj (r : Rec)
deriving DecidableEq

/-- Python dict assignment `d[k] = v` on an insertion-ordered association
list: override the existing entry if the key is present, else append. -/
def dictInsert (d : List (String × LookupVal)) (k : String) (v : LookupVal) :
    List (String × LookupVal) :=
  if d.any fun p => p.1 == k then
    d.map fun p => if p.1 == k then (k, v) else p
  else d ++ [(k, v)]

/-- Python dict lookup `d[k]` / `k in d`. -/
def dictGet (d : List (String × LookupVal)) (k : String) : Option LookupVal :=
  (d.find? fun p => p.1 == k).map fun p => p.2

/-- The lookup built over `self`'s collection:
`dict((obj.name, i) for i, obj in enumerate(objs))`; a later duplicate name
overrides an earlier one. -/
def initLookup (objs : List Rec) : List (String × LookupVal) :=
  objs.enum.foldl (fun d p => dictInsert d p.2.name (LookupVal.idx p.1)) []

/-- The inner loop of `Segment.merge` over one named-array collection:
for each incoming record, if its name is in the lookup, replace the entry at
the recorded index by the record-level merge (`rm` stands for the external
`entry.merge(obj)` call), turning an `AttributeError` into the enriched
re-raise and letting any other exception propagate raw; if the recorded
lookup value is a record object rather than an index, list indexing raises a
`TypeError`. A fresh name appends the record and registers it in the lookup. -/
def mergeNamedLoop (rm : Rec → Rec → Except PyErr Rec) (container : String)
    (col : List Rec) (lookup : List (String × LookupVal)) :
    List Rec → Except SegErr (List Rec)
  | [] => .ok col
  | obj :: rest =>
    match dictGet lookup obj.name with
    | some (LookupVal.idx i) =>
      match col.get? i with
      | some entry =>
        match rm entry obj with
        | .ok newobj => mergeNamedLoop rm container (col.set i newobj) lookup rest
        | .error e =>
          if e.isAttributeError then
            .error (SegErr.enriched e container obj.name obj.shape)
          else
            .error (SegErr.raw e)
      | none => .error (SegErr.indexError container)
    | some (LookupVal.obj _) => .error (SegErr.typeErrorListIndex container)
    | none =>
      mergeNamedLoop rm container (col ++ [obj])
        (dictInsert lookup obj.name (LookupVal.obj obj)) rest

/-- One named-array collection pass of `Segment.merge`: build the lookup over
`self`'s collection, then run the loop over `other`'s records. -/
def mergeNamed (rm : Rec → Rec → Except PyErr Rec) (container : String)
    (selfCol otherCol : List Rec) : Except SegErr (List Rec) :=
  mergeNamedLoop rm container selfCol (initLookup selfCol) otherCol

/-- `Segment.merge(other)`: extend the six plain collections by `other`'s, in
order, then process the three named-array collections in source order
(`epocharrays`, `eventarrays`, `analogsignalarrays`). `rm` is the external
record-level `merge` operation of the array-record classes. -/
def Segment.merge (rm : Rec → Rec → Except PyErr Rec) (self other : Segment) :
    Except SegErr Segment :=
  let s1 := { self with
    epochs := self.epochs ++ other.epochs,
    events := self.events ++ other.events,
    analogsignals := self.analogsignals ++ other.analogsignals,
    irregularlysampledsignals :=
      self.irregularlysampledsignals ++ other.irregularlysampledsignals,
    spikes := self.spikes ++ other.spikes,
    spiketrains := self.spiketrains ++ other.spiketrains }
  match mergeNamed rm "epocharrays" s1.epocharrays other.epocharrays with
  | .error e => .error e
  | .ok ea =>
    match mergeNamed rm "eventarrays" s1.eventarrays other.eventarrays with
    | .error e => .error e
    | .ok ev =>
      match mergeNamed rm "analogsignalarrays" s1.analogsignalarrays
          other.analogsignalarrays with
      | .error e => .error e
      | .ok aa =>
        .ok { s1 with epocharrays := ea, eventarrays := ev, analogsignalarrays := aa }

/-- Modelled from the spec: the record-level `merge` of two array records
(external to this source file) concatenates the two sample buffers along the
sample axis and fails on incompatible shapes, as `numpy` concatenation does,
with a `ValueError`. -/
def recMergeSpec (a b : Rec) : Except PyErr Rec :=
  if (a.data.headD []).length = (b.data.headD []).length then
    .ok { a with data := a.data ++ b.data }
  else .error (PyErr.valueError "incompatible shapes")

/-- Sample array record for the slice-selection witnesses: channels 5, 3, 1
with two samples. -/
def sliceArr : Rec :=
  { name := "arr", channel_indexes := some [5, 3, 1],
    data := [[10, 20, 30], [40, 50, 60]] }

/-- Sample segment for the slice-selection witnesses: one array with channel
indexes and one without. -/
def sliceSeg : Segment :=
  { analogsignalarrays := [sliceArr, { name := "noIdx" }] }

/-- Sample array record for the empty-query witness. -/
def zeroSliceArr : Rec :=
  { name := "zs", channel_indexes := some [1, 2], data := [[7, 8], [9, 10]] }

/-- Sample segment for the empty-query witness: one eligible array and one
array without channel indexes. -/
def zeroSliceSeg : Segment :=
  { analogsignalarrays := [zeroSliceArr, { name := "plain" }] }

/-- Whether a merge failure is the enriched re-raise (as opposed to a
propagated raw exception or an indexing error). -/
def SegErr.isEnriched : SegErr → Bool
  | .enriched _ _ _ _ => true
  | _ => false

/-- Sample segments for the merge witnesses. -/
def mergeSelfW : Segment :=
  { events := [{ name := "e1" }], epocharrays := [{ name := "p", data := [[1]] }] }

/-- Second sample segment for the merge witnesses. -/
def mergeOtherW : Segment :=
  { events := [{ name := "e2" }], epocharrays := [{ name := "p", data := [[2]] }] }

/-- Expected result of merging the two sample segments with the spec-modelled
record merge. -/
def mergeResW : Segment :=
  { events := [{ name := "e1" }, { name := "e2" }],
    epocharrays := [{ name := "p", data := [[1], [2]] }] }

/-- A record-level merge that always fails with an `AttributeError` (as a
record class without a `merge` method does). -/
def rmAttrFail : Rec → Rec → Except PyErr Rec := fun _ _ =>
  .error (PyErr.attributeError "object has no attribute merge")

/-- A record-level merge that always fails with a `ValueError` (as a shape
mismatch inside a numpy concatenation does). -/
def rmShapeFail : Rec → Rec → Except PyErr Rec := fun _ _ =>
  .error (PyErr.valueError "input array dimensions do not match")

/-- Sample segment with one named event array, for the C2 witness and
counterexample. -/
def attrSelfW : Segment := { eventarrays := [{ name := "ev", data := [[1, 2]] }] }

/-- Sample segment with a same-named event array, for the C2 witness and
counterexample. -/
def attrOtherW : Segment := { eventarrays := [{ name := "ev", data := [[3, 4]] }] }

/-- Sample segment whose `epocharrays` holds two records with the same name,
for the C1 failing input. -/
def dupOther : Segment :=
  { epocharrays := [{ name := "a", data := [[1]] }, { name := "a", data := [[2]] }] }

/-- C8: at every state of a Segment, `all_data` is exactly the concatenation
of the nine collections in the fixed order epochs, epocharrays, events,
eventarrays, analogsignals, analogsignalarrays, irregularlysampledsignals,
spikes, spiketrains; it is recomputed from the current collections on demand,
so every operation preserves this. -/
theorem all_data_is_ordered_concatenation (s : Segment) :
    s.all_data = s.epochs ++ s.epocharrays ++ s.events ++ s.eventarrays ++
      s.analogsignals ++ s.analogsignalarrays ++ s.irregularlysampledsignals ++
      s.spikes ++ s.spiketrains := by
  simp [Segment.all_data, List.append_assoc]

/-- C7: every unit/channel selection method, called with `None`, returns an
empty sequence (and, being total here, never raises). -/
theorem take_methods_on_none_return_empty (s : Segment) :
    s.take_spikes_by_unit none = [] ∧
    s.take_spiketrains_by_unit none = [] ∧
    s.take_analogsignal_by_unit none = [] ∧
    s.take_analogsignal_by_channelindex none = [] ∧
    s.take_slice_of_analogsignalarray_by_unit none = [] ∧
    s.take_slice_of_analogsignalarray_by_channelindex none = [] :=
  ⟨rfl, rfl, rfl, rfl, rfl, rfl⟩

/-- C6 (amended): `size()` maps each of the nine collection names to its
current length, with the keys in the source's insertion order (epochs,
events, analogsignals, irregularlysampledsignals, spikes, spiketrains,
epocharrays, eventarrays, analogsignalarrays); it has no side effects and the
counts sum to the length of the `all_data` sequence that `filter` scans. -/
theorem size_counts_and_sum (s : Segment) :
    s.size = [("epochs", s.epochs.length), ("events", s.events.length),
      ("analogsignals", s.analogsignals.length),
      ("irregularlysampledsignals", s.irregularlysampledsignals.length),
      ("spikes", s.spikes.length), ("spiketrains", s.spiketrains.length),
      ("epocharrays", s.epocharrays.length),
      ("eventarrays", s.eventarrays.length),
      ("analogsignalarrays", s.analogsignalarrays.length)] ∧
    (s.size.map Prod.snd).sum = s.all_data.length := by
  refine ⟨rfl, ?_⟩
  simp [Segment.size, Segment.all_data]
  omega

/-- C6 (counterexample): the key order of `size()` is not the fixed
`all_data` order claimed — it is the generator's order, with the three
named-array collections last. -/
theorem size_key_order_counterexample :
    Segment.empty.size.map Prod.fst ≠
      ["epochs", "epocharrays", "events", "eventarrays", "analogsignals",
       "analogsignalarrays", "irregularlysampledsignals", "spikes",
       "spiketrains"] ∧
    Segment.empty.size.map Prod.fst =
      ["epochs", "events", "analogsignals", "irregularlysampledsignals",
       "spikes", "spiketrains", "epocharrays", "eventarrays",
       "analogsignalarrays"] := by
  constructor
  · decide
  · rfl

/-- C5: `construct_subsegment_by_unit` returns a new Segment whose
`analogsignals`, `spiketrains` and `analogsignalarrays` are exactly the three
unit-scoped selection results, whose other six collections are empty and whose
metadata is not copied; the collections are freshly built sequences (so the
source segment is untouched), while each spike-train and analog-signal record
in them is one of the source's own records (shared, not copied). -/
theorem construct_subsegment_by_unit_spec (s : Segment) (ul : Option (List NeoUnit)) :
    (s.construct_subsegment_by_unit ul).analogsignals = s.take_analogsignal_by_unit ul ∧
    (s.construct_subsegment_by_unit ul).spiketrains = s.take_spiketrains_by_unit ul ∧
    (s.construct_subsegment_by_unit ul).analogsignalarrays =
      s.take_slice_of_analogsignalarray_by_unit ul ∧
    (s.construct_subsegment_by_unit ul).epochs = [] ∧
    (s.construct_subsegment_by_unit ul).epocharrays = [] ∧
    (s.construct_subsegment_by_unit ul).events = [] ∧
    (s.construct_subsegment_by_unit ul).eventarrays = [] ∧
    (s.construct_subsegment_by_unit ul).irregularlysampledsignals = [] ∧
    (s.construct_subsegment_by_unit ul).spikes = [] ∧
    (s.construct_subsegment_by_unit ul).name = none ∧
    (s.construct_subsegment_by_unit ul).description = none ∧
    (s.construct_subsegment_by_unit ul).file_origin = none ∧
    (s.construct_subsegment_by_unit ul).file_datetime = none ∧
    (s.construct_subsegment_by_unit ul).rec_datetime = none ∧
    (s.construct_subsegment_by_unit ul).index = none ∧
    (∀ st ∈ (s.construct_subsegment_by_unit ul).spiketrains, st ∈ s.spiketrains) ∧
    (∀ a ∈ (s.construct_subsegment_by_unit ul).analogsignals, a ∈ s.analogsignals) := by
  refine ⟨rfl, rfl, rfl, rfl, rfl, rfl, rfl, rfl, rfl, rfl, rfl, rfl, rfl, rfl, rfl, ?_, ?_⟩
  · intro st hst
    cases ul with
    | none => simp [Segment.construct_subsegment_by_unit,
        Segment.take_spiketrains_by_unit] at hst
    | some units =>
      simp [Segment.construct_subsegment_by_unit,
        Segment.take_spiketrains_by_unit, List.mem_filter] at hst
      exact hst.1
  · intro a ha
    cases ul with
    | none => simp [Segment.construct_subsegment_by_unit,
        Segment.take_analogsignal_by_unit] at ha
    | some units =>
      simp [Segment.construct_subsegment_by_unit,
        Segment.take_analogsignal_by_unit,
        Segment.take_analogsignal_by_channelindex, List.mem_filter] at ha
      exact ha.1

/-- Helper: the loop of `filter` is the concatenation, over criteria in
order, of the per-criterion scans. -/
theorem filterAux_eq_bind (data : List Rec) (cs : List (String × Int)) :
    filterAux data cs =
      cs.flatMap fun kv => data.filter fun r => recMatches r kv.1 kv.2 := by
  induction cs with
  | nil => rfl
  | cons kv rest ih =>
    obtain ⟨k, v⟩ := kv
    simp [filterAux, ih]

/-- Helper: multiplicity of a fixed record in a filtered list. -/
theorem count_filter_ite (p : Rec → Bool) (r : Rec) (l : List Rec) :
    (l.filter p).count r = if p r then l.count r else 0 := by
  induction l with
  | nil => simp
  | cons a t ih =>
    by_cases har : a = r
    · subst har
      by_cases hp : p a <;> simp [List.filter_cons, hp, List.count_cons, ih]
    · by_cases hp : p a <;> simp [List.filter_cons, hp, List.count_cons, har, ih]

/-- Helper: multiplicity of a record in the full filter result. -/
theorem filterAux_count (data : List Rec) (cs : List (String × Int)) (r : Rec) :
    (filterAux data cs).count r =
      (cs.filter fun kv => recMatches r kv.1 kv.2).length * data.count r := by
  induction cs with
  | nil => simp [filterAux]
  | cons kv rest ih =>
    obtain ⟨k, v⟩ := kv
    by_cases h : recMatches r k v
    · simp [filterAux, List.count_append, ih, count_filter_ite, h,
        List.filter_cons, Nat.succ_mul]
      omega
    · simp [filterAux, List.count_append, ih, count_filter_ite, h,
        List.filter_cons]

/-- Helper: the match test of `filter` holds exactly when the record has the
attribute with that exact value or, failing that, an annotation with it. -/
theorem recMatches_iff (r : Rec) (k : String) (v : Int) :
    recMatches r k v = true ↔
      (lookupKV r.attrs k = some v ∨
        (lookupKV r.attrs k ≠ some v ∧ lookupKV r.annotations k = some v)) := by
  unfold recMatches annMatches
  cases ha : lookupKV r.attrs k with
  | none =>
    cases hn : lookupKV r.annotations k with
    | none => simp
    | some w => simp [beq_iff_eq]
  | some w =>
    by_cases hv : w = v
    · subst hv
      simp
    · cases hn : lookupKV r.annotations k with
      | none => simp [beq_iff_eq, hv]
      | some w2 => simp [beq_iff_eq, hv]

/-- C3: `filter` appends a record once per matching (key, value) criterion
pair — matching is having the attribute with that exact value or, otherwise,
an annotation entry with it — so a record matching two distinct criteria
appears twice; within each criterion the result follows `all_data` order,
criteria are processed in the supplied order, and empty criteria yield an
empty result. -/
theorem filter_once_per_matching_criterion (s : Segment)
    (criteria : List (String × Int)) :
    s.filter criteria =
      (criteria.flatMap fun kv => s.all_data.filter fun r => recMatches r kv.1 kv.2) ∧
    (∀ r k v, recMatches r k v = true ↔
      (lookupKV r.attrs k = some v ∨
        (lookupKV r.attrs k ≠ some v ∧ lookupKV r.annotations k = some v))) ∧
    (∀ r, (s.filter criteria).count r =
      (criteria.filter fun kv => recMatches r kv.1 kv.2).length *
        s.all_data.count r) ∧
    s.filter [] = [] :=
  ⟨filterAux_eq_bind s.all_data criteria, recMatches_iff,
   fun r => filterAux_count s.all_data criteria r, rfl⟩

/-- Helper: the slice selection keeps, in order, exactly the arrays whose
`channel_indexes` is present, each replaced by its column slice. -/
theorem take_slice_eq_filter_map (l : List Rec) (q : List Int) :
    (l.filterMap fun sigarr => match sigarr.channel_indexes with
      | some _ => some (sliceColumns sigarr q)
      | none => none) =
    (l.filter fun a => a.channel_indexes.isSome).map fun a => sliceColumns a q := by
  induction l with
  | nil => rfl
  | cons a t ih =>
    cases ha : a.channel_indexes <;>
      simp [List.filterMap_cons, List.filter_cons, ha, ih]

/-- Helper: `take_slice_of_analogsignalarray_by_channelindex` on a present
query, in closed form. -/
theorem take_slice_some (s : Segment) (q : List Int) :
    s.take_slice_of_analogsignalarray_by_channelindex (some q) =
      (s.analogsignalarrays.filter fun a => a.channel_indexes.isSome).map
        fun a => sliceColumns a q :=
  take_slice_eq_filter_map s.analogsignalarrays q

/-- Helper: the column slice depends on the query only through membership. -/
theorem sliceColumns_congr (a : Rec) (q q2 : List Int)
    (hq : ∀ x : Int, x ∈ q ↔ x ∈ q2) :
    sliceColumns a q = sliceColumns a q2 := by
  have hd : ∀ c : Int, (decide (c ∈ q)) = (decide (c ∈ q2)) := by
    intro c
    by_cases h : c ∈ q
    · simp [h, (hq c).mp h]
    · have h2 : c ∉ q2 := fun hc => h ((hq c).mpr hc)
      simp [h, h2]
  cases ha : a.channel_indexes with
  | none => simp [sliceColumns, ha]
  | some rcis =>
    have h1 : (rcis.filter fun c => c ∈ q) = rcis.filter fun c => c ∈ q2 :=
      List.filter_congr fun c _ => hd c
    have h3 : (fun row : List Int =>
        ((row.zip rcis).filter fun p => p.2 ∈ q).map Prod.fst) =
        fun row => ((row.zip rcis).filter fun p => p.2 ∈ q2).map Prod.fst :=
      funext fun row => by rw [List.filter_congr fun p _ => hd p.2]
    simp only [sliceColumns, ha]
    rw [h1, h3]

/-- Helper: a row of the correct width keeps exactly one entry per kept
channel. -/
theorem maskRow_length (q : List Int) :
    ∀ (row rcis : List Int), row.length = rcis.length →
      (((row.zip rcis).filter fun p => p.2 ∈ q).map Prod.fst).length =
        (rcis.filter fun c => c ∈ q).length := by
  intro row
  induction row with
  | nil =>
    intro rcis h
    have : rcis = [] := by
      cases rcis with
      | nil => rfl
      | cons c cs => simp at h
    subst this
    simp
  | cons x xs ih =>
    intro rcis h
    cases rcis with
    | nil => simp at h
    | cons c cs =>
      by_cases hc : c ∈ q <;>
        simp [List.zip_cons_cons, List.filter_cons, hc, ih cs (by simpa using h)]

/-- C4: with a present channel-index query, the slice selection returns one
new column-sliced record per array whose `channel_indexes` is present
(arrays with an absent field are skipped), each keeping all samples and
exactly the channels whose index is a member of the query, in the array's own
original channel order; the whole result depends on the query only through
membership, not order. -/
theorem take_slice_by_channelindex_spec (s : Segment) (q q2 : List Int)
    (r : Rec) (rcis : List Int) (hq : ∀ x : Int, x ∈ q ↔ x ∈ q2)
    (hr : r.channel_indexes = some rcis) :
    s.take_slice_of_analogsignalarray_by_channelindex (some q) =
      ((s.analogsignalarrays.filter fun a => a.channel_indexes.isSome).map
        fun a => sliceColumns a q) ∧
    s.take_slice_of_analogsignalarray_by_channelindex (some q) =
      s.take_slice_of_analogsignalarray_by_channelindex (some q2) ∧
    (sliceColumns r q).channel_indexes = some (rcis.filter fun c => c ∈ q) ∧
    (rcis.filter fun c => c ∈ q).Sublist rcis ∧
    (∀ c : Int, c ∈ rcis.filter (fun c => c ∈ q) ↔ c ∈ rcis ∧ c ∈ q) ∧
    (sliceColumns r q).data.length = r.data.length ∧
    (∀ row ∈ r.data, row.length = rcis.length →
      ∃ srow ∈ (sliceColumns r q).data,
        srow.length = (rcis.filter fun c => c ∈ q).length) := by
  refine ⟨take_slice_some s q, ?_, ?_, ?_, ?_, ?_, ?_⟩
  · rw [take_slice_some s q, take_slice_some s q2]
    exact List.map_congr_left fun a _ => sliceColumns_congr a q q2 hq
  · simp [sliceColumns, hr]
  · exact List.filter_sublist rcis
  · intro c
    simp [List.mem_filter]
  · simp [sliceColumns, hr]
  · intro row hrow hlen
    refine ⟨(((row.zip rcis).filter fun p => p.2 ∈ q).map Prod.fst), ?_, ?_⟩
    · simp only [sliceColumns, hr]
      exact List.mem_map_of_mem _ hrow
    · exact maskRow_length q row rcis hlen

/-- C4 witness: on channel indexes `[5, 3, 1]` and query `[1, 5]`, channel 3
is dropped and channels 5 and 1 are kept in original left-to-right order, and
querying `[5, 1]` gives the same result. -/
theorem take_slice_by_channelindex_spec_witness :
    (sliceColumns sliceArr [1, 5]).channel_indexes = some [5, 1] ∧
    sliceSeg.take_slice_of_analogsignalarray_by_channelindex (some [1, 5]) =
      sliceSeg.take_slice_of_analogsignalarray_by_channelindex (some [5, 1]) := by
  have h := take_slice_by_channelindex_spec sliceSeg [1, 5] [5, 1] sliceArr [5, 3, 1]
    (by intro x; simp [List.mem_cons]; tauto) rfl
  refine ⟨?_, h.2.1⟩
  rw [h.2.2.1]
  rfl

/-- Helper: units that all lack `channel_indexes` contribute an empty (not
absent) channel-index list. -/
theorem gather_all_none (ul : List NeoUnit) :
    (∀ u ∈ ul, u.channel_indexes = none) → gatherChannelIndexes ul = [] := by
  induction ul with
  | nil => intro _; rfl
  | cons u t ih =>
    intro h
    have hu := h u (List.mem_cons_self u t)
    have ht := ih fun x hx => h x (List.mem_cons_of_mem u hx)
    unfold gatherChannelIndexes at ht ⊢
    simp only [List.foldl_cons, hu]
    exact ht

/-- C10: an empty channel-index list is not treated like `None` — the slice
selection under the empty query returns one zero-channel slice per array
whose `channel_indexes` is present, and the by-unit variant over units none
of which carry `channel_indexes` reduces to exactly that empty-list query. -/
theorem empty_channel_query_yields_zero_channel_slices (s : Segment)
    (ul : List NeoUnit) (h : ∀ u ∈ ul, u.channel_indexes = none) :
    s.take_slice_of_analogsignalarray_by_unit (some ul) =
      s.take_slice_of_analogsignalarray_by_channelindex (some []) ∧
    (s.take_slice_of_analogsignalarray_by_channelindex (some [])).length =
      (s.analogsignalarrays.filter fun a => a.channel_indexes.isSome).length ∧
    ∀ r ∈ s.take_slice_of_analogsignalarray_by_channelindex (some []),
      r.channel_indexes = some [] ∧ ∀ row ∈ r.data, row = [] := by
  refine ⟨?_, ?_, ?_⟩
  · show s.take_slice_of_analogsignalarray_by_channelindex
      (some (gatherChannelIndexes ul)) = _
    rw [gather_all_none ul h]
  · rw [take_slice_some s []]
    exact List.length_map _ _
  · intro r hr
    rw [take_slice_some s []] at hr
    rcases List.mem_map.mp hr with ⟨a, ha, rfl⟩
    have hsome := (List.mem_filter.mp ha).2
    rcases Option.isSome_iff_exists.mp hsome with ⟨rcis, hrc⟩
    constructor
    · simp [sliceColumns, hrc]
    · intro row hrow
      simp only [sliceColumns, hrc] at hrow
      rcases List.mem_map.mp hrow with ⟨row0, _, heq⟩
      rw [← heq]
      simp

/-- C10 witness: a unit without `channel_indexes` yields the empty-list
query, and that query returns one (zero-channel) slice, not an empty
result. -/
theorem empty_channel_query_witness :
    zeroSliceSeg.take_slice_of_analogsignalarray_by_unit
      (some [{ uid := 0, channel_indexes := none }]) =
      zeroSliceSeg.take_slice_of_analogsignalarray_by_channelindex (some []) ∧
    (zeroSliceSeg.take_slice_of_analogsignalarray_by_channelindex
      (some [])).length = 1 := by
  have h := empty_channel_query_yields_zero_channel_slices zeroSliceSeg
    [{ uid := 0, channel_indexes := none }] (by decide)
  refine ⟨h.1, ?_⟩
  rw [h.2.1]
  rfl

/-- C9: a successful `merge` leaves each of the six plain collections of the
result equal to `self`'s previous records followed by `other`'s records in
`other`'s order, with no deduplication, and leaves `self`'s metadata alone;
`other` is only read. -/
theorem merge_plain_collections (rm : Rec → Rec → Except PyErr Rec)
    (self other s2 : Segment) (h : Segment.merge rm self other = .ok s2) :
    s2.epochs = self.epochs ++ other.epochs ∧
    s2.events = self.events ++ other.events ∧
    s2.analogsignals = self.analogsignals ++ other.analogsignals ∧
    s2.irregularlysampledsignals =
      self.irregularlysampledsignals ++ other.irregularlysampledsignals ∧
    s2.spikes = self.spikes ++ other.spikes ∧
    s2.spiketrains = self.spiketrains ++ other.spiketrains ∧
    s2.name = self.name ∧ s2.description = self.description ∧
    s2.file_origin = self.file_origin ∧ s2.file_datetime = self.file_datetime ∧
    s2.rec_datetime = self.rec_datetime ∧ s2.index = self.index ∧
    s2.block = self.block := by
  simp only [Segment.merge] at h
  split at h
  · simp at h
  · split at h
    · simp at h
    · split at h
      · simp at h
      · simp only [Except.ok.injEq] at h
        subst h
        exact ⟨rfl, rfl, rfl, rfl, rfl, rfl, rfl, rfl, rfl, rfl, rfl, rfl, rfl⟩

/-- C9 witness: a concrete successful merge, with the plain `events`
collection equal to `self`'s followed by `other`'s. -/
theorem merge_plain_collections_witness :
    Segment.merge recMergeSpec mergeSelfW mergeOtherW = .ok mergeResW ∧
    mergeResW.events = mergeSelfW.events ++ mergeOtherW.events :=
  ⟨by rfl, (merge_plain_collections recMergeSpec mergeSelfW mergeOtherW
    mergeResW (by rfl)).2.1⟩

/-- Helper: every failure of the named-collection merge loop is either the
enriched re-raise of an `AttributeError` from the record-level merge
(carrying the collection name and the incoming record's name and shape), a
raw non-`AttributeError` record-merge exception propagated unchanged, or one
of the two indexing errors. -/
theorem mergeNamedLoop_error_cases (rm : Rec → Rec → Except PyErr Rec)
    (container : String) :
    ∀ (rest col : List Rec) (lookup : List (String × LookupVal)) (e : SegErr),
      mergeNamedLoop rm container col lookup rest = .error e →
      (∃ cause n sh, e = SegErr.enriched cause container n sh ∧
        cause.isAttributeError = true ∧
        ∃ r o, rm r o = .error cause ∧ o.name = n ∧ o.shape = sh) ∨
      (∃ eps, e = SegErr.raw eps ∧ eps.isAttributeError = false ∧
        ∃ r o, rm r o = .error eps) ∨
      e = SegErr.typeErrorListIndex container ∨
      e = SegErr.indexError container := by
  intro rest
  induction rest with
  | nil => intro col lookup e h; simp [mergeNamedLoop] at h
  | cons obj rest ih =>
    intro col lookup e h
    simp only [mergeNamedLoop] at h
    cases hd : dictGet lookup obj.name with
    | none =>
      simp only [hd] at h
      exact ih _ _ _ h
    | some lv =>
      cases lv with
      | obj r2 =>
        simp only [hd] at h
        simp only [Except.error.injEq] at h
        subst h
        right; right; left; rfl
      | idx i =>
        simp only [hd] at h
        cases hg : col.get? i with
        | none =>
          simp only [hg] at h
          simp only [Except.error.injEq] at h
          subst h
          right; right; right; rfl
        | some entry =>
          simp only [hg] at h
          cases hrm : rm entry obj with
          | ok newobj =>
            simp only [hrm] at h
            exact ih _ _ _ h
          | error e1 =>
            simp only [hrm] at h
            by_cases hattr : e1.isAttributeError = true
            · rw [if_pos hattr] at h
              simp only [Except.error.injEq] at h
              subst h
              exact Or.inl ⟨e1, obj.name, obj.shape, rfl, hattr, entry, obj,
                hrm, rfl, rfl⟩
            · rw [if_neg hattr] at h
              simp only [Except.error.injEq] at h
              subst h
              exact Or.inr (Or.inl ⟨e1, rfl, by simpa using hattr, entry, obj, hrm⟩)

/-- C2 (amended): whenever `Segment.merge` fails, the failure is either the
enriched re-raise of a record-level `AttributeError` — wrapping the cause and
carrying the offending collection name and the incoming record's name and
shape — or a record-level failure of any other exception class propagated to
the caller unchanged (never swallowed, but not enriched), or one of the two
list-indexing errors. -/
theorem merge_record_failure_enrichment (rm : Rec → Rec → Except PyErr Rec)
    (self other : Segment) (e : SegErr)
    (h : Segment.merge rm self other = .error e) :
    (∃ cause c n sh, e = SegErr.enriched cause c n sh ∧
      cause.isAttributeError = true ∧
      c ∈ (["epocharrays", "eventarrays", "analogsignalarrays"] : List String) ∧
      ∃ r o, rm r o = .error cause ∧ o.name = n ∧ o.shape = sh) ∨
    (∃ eps, e = SegErr.raw eps ∧ eps.isAttributeError = false ∧
      ∃ r o, rm r o = .error eps) ∨
    (∃ c, (e = SegErr.typeErrorListIndex c ∨ e = SegErr.indexError c) ∧
      c ∈ (["epocharrays", "eventarrays", "analogsignalarrays"] : List String)) := by
  simp only [Segment.merge] at h
  split at h
  · rename_i e1 heq
    simp only [Except.error.injEq] at h
    subst h
    have hc := mergeNamedLoop_error_cases rm "epocharrays" _ _ _ _ heq
    rcases hc with ⟨cause, n, sh, rfl, hattr, r, o, hro, hn, hsh⟩ |
      ⟨eps, rfl, hna, r, o, hro⟩ | rfl | rfl
    · exact Or.inl ⟨cause, "epocharrays", n, sh, rfl, hattr, by simp,
        r, o, hro, hn, hsh⟩
    · exact Or.inr (Or.inl ⟨eps, rfl, hna, r, o, hro⟩)
    · exact Or.inr (Or.inr ⟨"epocharrays", Or.inl rfl, by simp⟩)
    · exact Or.inr (Or.inr ⟨"epocharrays", Or.inr rfl, by simp⟩)
  · split at h
    · rename_i e1 heq
      simp only [Except.error.injEq] at h
      subst h
      have hc := mergeNamedLoop_error_cases rm "eventarrays" _ _ _ _ heq
      rcases hc with ⟨cause, n, sh, rfl, hattr, r, o, hro, hn, hsh⟩ |
        ⟨eps, rfl, hna, r, o, hro⟩ | rfl | rfl
      · exact Or.inl ⟨cause, "eventarrays", n, sh, rfl, hattr, by simp,
          r, o, hro, hn, hsh⟩
      · exact Or.inr (Or.inl ⟨eps, rfl, hna, r, o, hro⟩)
      · exact Or.inr (Or.inr ⟨"eventarrays", Or.inl rfl, by simp⟩)
      · exact Or.inr (Or.inr ⟨"eventarrays", Or.inr rfl, by simp⟩)
    · split at h
      · rename_i e1 heq
        simp only [Except.error.injEq] at h
        subst h
        have hc := mergeNamedLoop_error_cases rm "analogsignalarrays" _ _ _ _ heq
        rcases hc with ⟨cause, n, sh, rfl, hattr, r, o, hro, hn, hsh⟩ |
          ⟨eps, rfl, hna, r, o, hro⟩ | rfl | rfl
        · exact Or.inl ⟨cause, "analogsignalarrays", n, sh, rfl, hattr, by simp,
            r, o, hro, hn, hsh⟩
        · exact Or.inr (Or.inl ⟨eps, rfl, hna, r, o, hro⟩)
        · exact Or.inr (Or.inr ⟨"analogsignalarrays", Or.inl rfl, by simp⟩)
        · exact Or.inr (Or.inr ⟨"analogsignalarrays", Or.inr rfl, by simp⟩)
      · simp at h

/-- C2 witness: when the record-level merge fails with an `AttributeError`,
`Segment.merge` fails with the enriched error carrying the cause, the
collection name, and the incoming record's name and shape. -/
theorem merge_record_failure_enrichment_witness :
    Segment.merge rmAttrFail attrSelfW attrOtherW =
      .error (SegErr.enriched (PyErr.attributeError "object has no attribute merge")
        "eventarrays" "ev" (1, 2)) ∧
    ((∃ cause c n sh,
      SegErr.enriched (PyErr.attributeError "object has no attribute merge")
          "eventarrays" "ev" (1, 2) = SegErr.enriched cause c n sh ∧
      cause.isAttributeError = true ∧
      c ∈ (["epocharrays", "eventarrays", "analogsignalarrays"] : List String) ∧
      ∃ r o, rmAttrFail r o = .error cause ∧ o.name = n ∧ o.shape = sh) ∨
    (∃ eps,
      SegErr.enriched (PyErr.attributeError "object has no attribute merge")
          "eventarrays" "ev" (1, 2) = SegErr.raw eps ∧
      eps.isAttributeError = false ∧ ∃ r o, rmAttrFail r o = .error eps) ∨
    (∃ c,
      (SegErr.enriched (PyErr.attributeError "object has no attribute merge")
          "eventarrays" "ev" (1, 2) = SegErr.typeErrorListIndex c ∨
        SegErr.enriched (PyErr.attributeError "object has no attribute merge")
          "eventarrays" "ev" (1, 2) = SegErr.indexError c) ∧
      c ∈ (["epocharrays", "eventarrays", "analogsignalarrays"] : List String))) :=
  ⟨by rfl, merge_record_failure_enrichment rmAttrFail attrSelfW attrOtherW
    (SegErr.enriched (PyErr.attributeError "object has no attribute merge")
      "eventarrays" "ev" (1, 2)) (by rfl)⟩

/-- C2 counterexample: a record-level merge failure that is not an
`AttributeError` (here the claim's own example, a shape mismatch, raised as a
`ValueError`) propagates to the caller unchanged — it is not enriched with
the collection name, the record name or the shape. -/
theorem merge_nonattr_failure_not_enriched :
    Segment.merge rmShapeFail attrSelfW attrOtherW =
      .error (SegErr.raw (PyErr.valueError "input array dimensions do not match")) ∧
    (SegErr.raw (PyErr.valueError "input array dimensions do not match")).isEnriched
      = false :=
  ⟨by rfl, rfl⟩

/-- C1 (failing input): merging a segment whose `epocharrays` contains two
same-named records into an empty segment appends the first and registers its
name, but the second then indexes the collection with the registered record
object itself (`lookup[obj.name] = obj` stores the object, not its index), so
the merge raises a `TypeError` instead of merging the second record into the
first as the claim states. -/
theorem merge_duplicate_name_in_other_raises_type_error :
    Segment.merge recMergeSpec Segment.empty dupOther =
      .error (SegErr.typeErrorListIndex "epocharrays") := by
  rfl
